import Mathlib

/-!
Verification development for the `computer_use_boilerplates` repository.

Part 1 (`AutoTool`) embeds `src/gemini_standalone/agent/auto_tool.py`: the
schema synthesizer that inspects a native Python function signature and
produces a JSON-schema-shaped tool declaration.

Part 2 (`CUA`) embeds `src/gemini_computer_use/agent/browser.py` and
`src/gemini_computer_use/agent/core.py`: the browser action dispatcher and
the (sync and async) agent loop.  External effects (Playwright calls, LLM
calls, user confirmation) are modelled as an explicit environment of
oracles indexed by call count; the state threading mirrors the Python
control flow statement by statement, and a trace of observable events
(model calls, action invocations, settle waits, screen captures) is
accumulated.
-/

namespace AutoTool

/-- The OpenAPI basic data types (`class OpenAPITypes` in auto_tool.py). -/
inductive OpenAPIType where
  | string
  | integer
  | number
  | boolean
  | object
  | array
  deriving DecidableEq, Repr

/-- The `.value` string of each `OpenAPITypes` member. -/
def OpenAPIType.val : OpenAPIType → String
  | .string => "string"
  | .integer => "integer"
  | .number => "number"
  | .boolean => "boolean"
  | .object => "object"
  | .array => "array"

/-- Python runtime values that can occur as declared parameter defaults.
`vNone` is Python `None`; `vEnum v` is an `Enum` member whose `.value` is `v`. -/
inductive PyValue where
  | vNone
  | vStr (s : String)
  | vInt (n : Int)
  | vBool (b : Bool)
  | vEnum (value : String)
  deriving DecidableEq, Repr

/-- Python type annotations as observed through `typing.get_origin` /
`typing.get_args`.

* `builtinList` is the bare builtin `list`: `get_origin(list)` is `None` and
  `PYTHON_TO_OPENAPI_TYPE_MAP` maps it to `ARRAY`.
* `typingList args` covers `list[T]` / `typing.List[T]` (origin `list`,
  args `[T]`) and the unparameterized `typing.List` (origin `list`, args `()`).
* `typingTuple args` likewise for origin `tuple`.
* `unionT args` is `Union[...]` / `Optional[...]` (origin `typing.Union`).
* `noneType` is `NoneType`; `enumT vs` an `Enum` subclass with member values
  `vs`; `otherT` any other class, absent from the type map. -/
inductive PyType where
  | pyStr
  | pyInt
  | pyFloat
  | pyBool
  | pyDict
  | builtinList
  | typingList (args : List PyType)
  | typingTuple (args : List PyType)
  | unionT (args : List PyType)
  | noneType
  | enumT (values : List String)
  | otherT

/-- The `Schema` class of auto_tool.py.  Python falsy-vs-set distinctions are
preserved: `description` `None`/`""` are both falsy so a single `String`
(default `""`) suffices; `enum` `None`/`[]` likewise; `default` is a Python
value where `None` (here `PyValue.vNone`) means "no default". -/
structure SchemaL where
  arg_type : OpenAPIType
  properties : List (String × SchemaL)
  required : List String
  description : String
  items : Option SchemaL
  enum : List String
  default : PyValue

/-- A `Schema(arg_type=ty)` constructor call with every optional argument at
its `Schema.__init__` default. -/
def schemaDefault (ty : OpenAPIType) : SchemaL :=
  ⟨ty, [], [], "", none, [], .vNone⟩

/-- JSON-like values produced by `Schema.oas_format`. -/
inductive JVal where
  | jStr (s : String)
  | jInt (n : Int)
  | jBool (b : Bool)
  | jNull
  | jArr (elems : List JVal)
  | jObj (fields : List (String × JVal))

/-- Serialization of a default value in `Schema.oas_format`: an `Enum` member
is replaced by its `.value`, anything else is emitted as-is. -/
def PyValue.toJson : PyValue → JVal
  | .vNone => .jNull
  | .vStr s => .jStr s
  | .vInt n => .jInt n
  | .vBool b => .jBool b
  | .vEnum v => .jStr v

mutual

/-- `Schema.oas_format`: emits the dict keys in the source's insertion order
(`type`, `description`, `properties`, `required`, `items`, `enum`,
`default`), skipping each optional key under the same guard as the source
(`if self.description:` etc.; `default` is guarded by `is not None`). -/
def SchemaL.oasFormat : SchemaL → JVal
  | ⟨ty, props, req, desc, items, en, dflt⟩ =>
    .jObj (
      [("type", .jStr ty.val)]
      ++ (if desc = "" then [] else [("description", .jStr desc)])
      ++ (if props.isEmpty then [] else [("properties", .jObj (oasFormatProps props))])
      ++ (if req.isEmpty then [] else [("required", .jArr (req.map .jStr))])
      ++ (match items with
          | some it => [("items", SchemaL.oasFormat it)]
          | none => [])
      ++ (if en.isEmpty then [] else [("enum", .jArr (en.map .jStr))])
      ++ (if dflt = .vNone then [] else [("default", dflt.toJson)]))

/-- Pointwise `oas_format` over the `properties` mapping. -/
def oasFormatProps : List (String × SchemaL) → List (String × JVal)
  | [] => []
  | (k, v) :: rest => (k, SchemaL.oasFormat v) :: oasFormatProps rest

end

/-- The keys of a `jObj` (empty for any other value). -/
def JVal.keys : JVal → List String
  | .jObj fields => fields.map Prod.fst
  | _ => []

/-- `FunctionSchemaBuilder._create_schema_from_type`.  The branch structure
mirrors the source:
* origin `list`/`tuple` → `ARRAY` with `items` from the first type argument,
  defaulting to `str` when there is none;
* origin `Union` → recurse on the first non-`None` member; with no such
  member the source falls through the class checks to the type-map default
  (`STRING`), which is what the `unionT []` case returns;
* an `Enum` subclass → `STRING` with the member values as `enum`;
* otherwise `PYTHON_TO_OPENAPI_TYPE_MAP.get(py_type, OpenAPITypes.STRING)`.
Note the bare builtin `list` has origin `None` in Python, so it reaches the
type-map fallback and produces `ARRAY` with no `items` schema. -/
def createSchemaFromType : PyType → SchemaL
  | .typingList [] => { schemaDefault .array with items := some (createSchemaFromType .pyStr) }
  | .typingList (a :: _) => { schemaDefault .array with items := some (createSchemaFromType a) }
  | .typingTuple [] => { schemaDefault .array with items := some (createSchemaFromType .pyStr) }
  | .typingTuple (a :: _) => { schemaDefault .array with items := some (createSchemaFromType a) }
  | .unionT [] => schemaDefault .string
  | .unionT (.noneType :: rest) => createSchemaFromType (.unionT rest)
  | .unionT (a :: _) => createSchemaFromType a
  | .enumT vs => { schemaDefault .string with enum := vs }
  | .pyStr => schemaDefault .string
  | .pyInt => schemaDefault .integer
  | .pyFloat => schemaDefault .number
  | .pyBool => schemaDefault .boolean
  | .pyDict => schemaDefault .object
  | .builtinList => schemaDefault .array
  | .noneType => schemaDefault .string
  | .otherT => schemaDefault .string

/-- `inspect.Parameter.kind`, reduced to the distinction the source draws:
ordinary parameters versus `*args` (`VAR_POSITIONAL`) and `**kwargs`
(`VAR_KEYWORD`), which `_process_parameters` skips. -/
inductive PKind where
  | posOrKw
  | varPos
  | varKw
  deriving DecidableEq, Repr

/-- One parameter of a Python signature.  `default = none` models
`inspect.Parameter.empty` (no declared default); `default = some v` a
declared default `v` (which may be `PyValue.vNone`, i.e. Python `None`). -/
structure PyParam where
  name : String
  kind : PKind := .posOrKw
  default : Option PyValue := none
  deriving DecidableEq, Repr

/-- One entry of `get_type_hints(func, include_extras=True)`: the annotation,
with `annotatedDesc = some d` when the annotation was
`Annotated[ty, d]` (which `_process_parameters` unwraps). -/
structure PyHint where
  ty : PyType
  annotatedDesc : Option String := none

/-- A Python callable as seen by `FunctionSchemaBuilder`: its signature's
parameters in declaration order and its type-hint mapping.  Parameter names
in a Python signature are unique, so the hint mapping and the `properties`
dict are faithfully represented as ordered association lists. -/
structure PyFunc where
  params : List PyParam
  hints : List (String × PyHint) := []

/-- The loop body of `FunctionSchemaBuilder._process_parameters`, processing
the remaining parameters and returning the `(properties, required)` pair
they contribute, in declaration order.  Each parameter named `self` or of
`*args` / `**kwargs` kind is skipped; the annotation defaults to `str` when
absent; the description comes from the `Annotated` metadata when present and
otherwise is the synthesized `Parameter '<name>'.`; the schema records the
declared default when there is one, and otherwise the name is appended to
the required list. -/
def processParamsAux (hints : List (String × PyHint)) : List PyParam → List (String × SchemaL) × List String
  | [] => ([], [])
  | p :: rest =>
    if p.name = "self" then processParamsAux hints rest
    else if p.kind = .varPos ∨ p.kind = .varKw then processParamsAux hints rest
    else
      let hint := (hints.lookup p.name).getD ⟨.pyStr, none⟩
      let desc := hint.annotatedDesc.getD ("Parameter \x27" ++ p.name ++ "\x27.")
      let base := createSchemaFromType hint.ty
      let recResult := processParamsAux hints rest
      match p.default with
      | some v =>
        ((p.name, { base with description := desc, default := v }) :: recResult.1, recResult.2)
      | none =>
        ((p.name, { base with description := desc }) :: recResult.1, p.name :: recResult.2)

/-- `FunctionSchemaBuilder._process_parameters`: the `(properties, required)`
pair built for a callable. -/
def processParameters (f : PyFunc) : List (String × SchemaL) × List String :=
  processParamsAux f.hints f.params

/-- `FunctionSchemaBuilder.build`: the object schema for the callable's
parameters. -/
def buildSchema (f : PyFunc) : SchemaL :=
  { schemaDefault .object with
    properties := (processParameters f).1
    required := (processParameters f).2 }

/-- A parameter is processed (not skipped) by `_process_parameters` iff it is
not named `self` and is not `*args` / `**kwargs`. -/
def isProcessed (p : PyParam) : Bool :=
  p.name ≠ "self" && p.kind ≠ .varPos && p.kind ≠ .varKw

/-- A sample callable in the shape of `BrowserManager.navigate`:
`navigate(self, url: str, press_enter: bool = True, **kwargs)`. -/
def navigateFunc : PyFunc :=
  { params := [
      ⟨"self", .posOrKw, none⟩,
      ⟨"url", .posOrKw, none⟩,
      ⟨"press_enter", .posOrKw, some (.vBool true)⟩,
      ⟨"kwargs", .varKw, none⟩],
    hints := [("url", ⟨.pyStr, none⟩), ("press_enter", ⟨.pyBool, none⟩)] }

/-- A callable with one parameter annotated with the bare builtin `list`:
`f(x: list)`. -/
def bareListFunc : PyFunc :=
  { params := [⟨"x", .posOrKw, none⟩],
    hints := [("x", ⟨.builtinList, none⟩)] }

end AutoTool

namespace CUA

/-- String-keyed Python dicts (action arguments and action results),
represented as insertion-ordered association lists.  Values are strings:
the agent only ever stores and compares string payloads in these dicts. -/
abbrev Dict := List (String × String)

/-- Python `d[k] = v`: overwrite in place if the key exists, else append. -/
def dictSet (d : Dict) (k v : String) : Dict :=
  if d.any (fun kv => kv.1 = k) then
    d.map (fun kv => if kv.1 = k then (k, v) else kv)
  else d ++ [(k, v)]

/-- Python `d.update(e)`: `dictSet` for each entry of `e` in order. -/
def dictUpdate (d e : Dict) : Dict :=
  e.foldl (fun acc kv => dictSet acc kv.1 kv.2) d

/-- Python `k in d`. -/
def dictContains (d : Dict) (k : String) : Bool :=
  d.any (fun kv => kv.1 = k)

/-- A `function_call` part of a model response: the action name and its
argument mapping (`fc.args` may be `None`, hence the `Option`). -/
structure FunctionCall where
  name : String
  args : Option Dict
  deriving DecidableEq, Repr

/-- A `FunctionResponse` as built by
`GeminiComputerUseClient.build_function_responses_message`: action name, the
`{url: ...} ∪ result` payload, and the inline screenshot bytes. -/
structure FunctionResponse where
  name : String
  response : Dict
  screenshot : String
  deriving DecidableEq, Repr

/-- A content `Part`: at most one of text, inline image data, function call,
or function response is populated. -/
structure Part where
  text : Option String := none
  inline_data : Option String := none
  function_call : Option FunctionCall := none
  function_response : Option FunctionResponse := none
  deriving DecidableEq, Repr

/-- A `Content` message: role plus parts. -/
structure Content where
  role : String
  parts : List Part
  deriving DecidableEq, Repr

/-- One candidate of a model response. -/
structure Candidate where
  content : Content
  deriving DecidableEq, Repr

/-- A model response: the candidate list (`response.candidates`). -/
structure ModelResponse where
  candidates : List Candidate
  deriving DecidableEq, Repr

/-- Observable events of a run: LLM calls, dispatched browser-action
invocations, post-action settle waits, and screenshot captures.  Call events
carry the index of the call (how many calls of that kind preceded it). -/
inductive Ev where
  | modelCall (idx : Nat)
  | invokeAction (name : String)
  | settleWait
  | captureScreen (idx : Nat)
  deriving DecidableEq, Repr

/-- Per-oracle call counters, threaded through the run in program order. -/
structure Ctrs where
  nModel : Nat := 0
  nCap : Nat := 0
  nUrl : Nat := 0
  nInv : Nat := 0
  nWait : Nat := 0
  nSafety : Nat := 0
  deriving DecidableEq, Repr

/-- The behaviors of everything outside the agent code: the Playwright
browser, the Gemini model, and the safety-confirmation policy.  Each oracle
is indexed by its call count and returns either a value or a raised Python
exception (carried as its message string).

* `startOk`: outcome of `BrowserManager.start` (Playwright + browser +
  context + page creation; on success the page is set).
* `navOk`: outcome of the initial `goto(initial_url)` / `search()` call.
* `capture`: `page.screenshot` outcomes, by capture index.
* `currentUrl`: `page.url` reads, by read index.
* `model`: `llm.generate_content` outcomes, by model-call index.
* `invoke`: outcome of invoking a registered action implementation
  (`execution_method(**action_args)`), by invocation index.
* `waitLoad`: outcome of `page.wait_for_load_state` inside
  `_wait_after_action` (swallowed there whatever it is).
* `safety`: outcome of `get_safety_confirmation` — the returned decision
  string, or a raised exception (e.g. a missing `explanation` key).
* `closeOk`: outcome of `BrowserManager.close` (which re-raises any
  exception of the underlying `browser.close()` / `playwright.stop()`). -/
structure Env where
  startOk : Except String Unit
  navOk : Except String Unit
  capture : Nat → Except String String
  currentUrl : Nat → Except String String
  model : Nat → Except String ModelResponse
  invoke : Nat → String → Dict → Except String Unit
  waitLoad : Nat → Except String Unit
  safety : Nat → Except String String
  closeOk : Except String Unit

/-- The keys of `BrowserManager.actions_map` (the registered action names). -/
def registeredActions : List String :=
  ["open_web_browser", "wait_5_seconds", "go_back", "go_forward", "search",
   "navigate", "click_at", "hover_at", "type_text_at", "key_combination",
   "scroll_document", "scroll_at", "drag_and_drop"]

/-- `BrowserManager._wait_after_action`: requests `wait_for_load_state` with
a bounded timeout, swallowing any exception it raises, then sleeps 500 ms.
Total: it never raises, and the settle event is emitted in both branches. -/
def waitAfterAction (env : Env) (c : Ctrs) : Ctrs × List Ev :=
  match env.waitLoad c.nWait with
  | .ok _ => ({ c with nWait := c.nWait + 1 }, [.settleWait])
  | .error _ => ({ c with nWait := c.nWait + 1 }, [.settleWait])

/-- `BrowserManager.execute_action`: looks the name up in `actions_map`;
unknown names yield the backticked warning dict with no side effect; for a
registered name the implementation is invoked, a raised exception is caught
and converted to an `error` dict, and only the successful path performs the
post-action settle wait before returning `{}`.  The whole body sits inside
`try/except`, so this function is total (it never raises). -/
def executeAction (env : Env) (c : Ctrs) (action_name : String) (action_args : Dict) :
    Dict × Ctrs × List Ev :=
  if registeredActions.contains action_name then
    match env.invoke c.nInv action_name action_args with
    | .error e => ([("error", e)], { c with nInv := c.nInv + 1 }, [.invokeAction action_name])
    | .ok _ =>
      let (c2, tr) := waitAfterAction env { c with nInv := c.nInv + 1 }
      ([], c2, [.invokeAction action_name] ++ tr)
  else
    ([("warning", "Action `" ++ action_name ++ "` was not implemented")], c, [])

/-- `ComputerUseAgent._execute_function_calls`: sequentially dispatches the
turn's batch.  For a call whose args contain `safety_decision` the
confirmation oracle is consulted first: a raised exception propagates
(`.error`, the local `results` list is lost), a `TERMINATE` decision breaks
out of the batch (returning only the results gathered so far), and any other
decision adds `safety_acknowledgement: true` to that action's result.  Each
dispatched action's result is paired with its name. -/
def execFunctionCalls (env : Env) (c : Ctrs) :
    List FunctionCall → Except String (List (String × Dict)) × Ctrs × List Ev
  | [] => (.ok [], c, [])
  | fc :: rest =>
    let fc_args := fc.args.getD []
    if dictContains fc_args "safety_decision" then
      match env.safety c.nSafety with
      | .error e => (.error e, { c with nSafety := c.nSafety + 1 }, [])
      | .ok decision =>
        let c1 := { c with nSafety := c.nSafety + 1 }
        if decision = "TERMINATE" then
          (.ok [], c1, [])
        else
          let (result, c2, tr) := executeAction env c1 fc.name fc_args
          let entry := (fc.name, dictUpdate [("safety_acknowledgement", "true")] result)
          match execFunctionCalls env c2 rest with
          | (.ok results, c3, tr2) => (.ok (entry :: results), c3, tr ++ tr2)
          | (.error e, c3, tr2) => (.error e, c3, tr ++ tr2)
    else
      let (result, c2, tr) := executeAction env c fc.name fc_args
      let entry := (fc.name, dictUpdate [] result)
      match execFunctionCalls env c2 rest with
      | (.ok results, c3, tr2) => (.ok (entry :: results), c3, tr ++ tr2)
      | (.error e, c3, tr2) => (.error e, c3, tr ++ tr2)

/-- One entry of `action_history`. -/
structure HEntry where
  turn : Nat
  action_name : String
  action_args : Dict
  result : Dict
  deriving DecidableEq, Repr

/-- The history-recording loop of `run`:
`for i, fc in enumerate(function_calls): ... action_results[i][1]`.
Entries are appended to the (mutable) history in order; when the results
list is shorter than the batch, the entries recorded before the overflow
persist and the loop raises `IndexError` (message
`list index out of range`), reported in the second component. -/
def recordHistory (turn : Nat) : List FunctionCall → List (String × Dict) →
    List HEntry × Option String
  | [], _ => ([], none)
  | fc :: fcs, r :: rs =>
    let (entries, err) := recordHistory turn fcs rs
    (⟨turn, fc.name, fc.args.getD [], r.2⟩ :: entries, err)
  | _ :: _, [] => ([], some "list index out of range")

/-- `" ".join([p.text for p in candidate.content.parts if p.text])`:
the final text, joining the truthy (present and non-empty) text parts. -/
def joinFinalText (parts : List Part) : String :=
  String.intercalate " " ((parts.filterMap (fun p => p.text)).filter (fun t => t ≠ ""))

/-- `GeminiComputerUseClient.build_initial_message`. -/
def buildInitialMessage (goal : String) (initial_image : String) : List Content :=
  [{ role := "user",
     parts := [{ text := some goal }, { inline_data := some initial_image }] }]

/-- `GeminiComputerUseClient.build_function_responses_message`: one function
response per action result, each carrying `{url: current_url} ∪ result` and
the screenshot, wrapped in a single user `Content`. -/
def buildFunctionResponsesMessage (screenshot current_url : String)
    (results : List (String × Dict)) : Content :=
  { role := "user",
    parts := results.map (fun r =>
      { function_response := some
          { name := r.1,
            response := dictUpdate [("url", current_url)] r.2,
            screenshot := screenshot } }) }

/-- The loop-carried state of `run`: the conversation `contents`, the
`action_history` accumulated so far, the oracle call counters, and the
event trace. -/
structure LoopSt where
  contents : List Content
  history : List HEntry
  ctrs : Ctrs
  trace : List Ev
  deriving DecidableEq, Repr

/-- Result of one iteration of the turn loop. -/
inductive StepRes where
  | done (finalMsg : String) (st : LoopSt)
  | next (st : LoopSt)
  | raised (e : String) (st : LoopSt)
  deriving DecidableEq, Repr

/-- Result of the whole `for turn in range(max_turns)` loop: `completed`
(break with a final text response), `exhausted` (all iterations ran with no
break, so the `else:` clause fires), or `raised` (an exception escaped the
iteration, to be caught by `run`'s `except`). -/
inductive LoopRes where
  | completed (finalMsg : String) (st : LoopSt)
  | exhausted (st : LoopSt)
  | raised (e : String) (st : LoopSt)
  deriving DecidableEq, Repr

/-- One iteration of the turn loop of `ComputerUseAgent.run` (`turn` is the
0-based Python loop variable): call the model, append the first candidate's
content, extract the function calls; with no function calls join the text
parts and break with `COMPLETED`; otherwise dispatch the batch, record the
history entries (possibly raising `IndexError` on a short results list),
capture the screenshot, read the URL, and append the function-response
message.  An empty candidate list raises `IndexError` at
`response.candidates[0]`. -/
def turnStep (env : Env) (turn : Nat) (st : LoopSt) : StepRes :=
  match env.model st.ctrs.nModel with
  | .error e =>
    .raised e { st with ctrs := { st.ctrs with nModel := st.ctrs.nModel + 1 },
                        trace := st.trace ++ [.modelCall st.ctrs.nModel] }
  | .ok response =>
    let st1 : LoopSt :=
      { st with ctrs := { st.ctrs with nModel := st.ctrs.nModel + 1 },
                trace := st.trace ++ [.modelCall st.ctrs.nModel] }
    match response.candidates with
    | [] => .raised "list index out of range" st1
    | candidate :: _ =>
      let st2 := { st1 with contents := st1.contents ++ [candidate.content] }
      let function_calls := candidate.content.parts.filterMap (fun p => p.function_call)
      if function_calls.isEmpty then
        .done (joinFinalText candidate.content.parts) st2
      else
        match execFunctionCalls env st2.ctrs function_calls with
        | (.error e, c3, tr) =>
          .raised e { st2 with ctrs := c3, trace := st2.trace ++ tr }
        | (.ok action_results, c3, tr) =>
          let st3 := { st2 with ctrs := c3, trace := st2.trace ++ tr }
          let (entries, err) := recordHistory (turn + 1) function_calls action_results
          let st4 := { st3 with history := st3.history ++ entries }
          match err with
          | some e => .raised e st4
          | none =>
            match env.capture st4.ctrs.nCap with
            | .error e =>
              .raised e { st4 with ctrs := { st4.ctrs with nCap := st4.ctrs.nCap + 1 },
                                   trace := st4.trace ++ [.captureScreen st4.ctrs.nCap] }
            | .ok screenshot =>
              let st5 : LoopSt :=
                { st4 with ctrs := { st4.ctrs with nCap := st4.ctrs.nCap + 1 },
                           trace := st4.trace ++ [.captureScreen st4.ctrs.nCap] }
              match env.currentUrl st5.ctrs.nUrl with
              | .error e =>
                .raised e { st5 with ctrs := { st5.ctrs with nUrl := st5.ctrs.nUrl + 1 } }
              | .ok current_url =>
                let st6 : LoopSt :=
                  { st5 with ctrs := { st5.ctrs with nUrl := st5.ctrs.nUrl + 1 } }
                .next { st6 with contents := st6.contents ++
                          [buildFunctionResponsesMessage screenshot current_url action_results] }

/-- `for turn in range(max_turns): ... else: ...`, with `remaining`
iterations left and `turn` the current 0-based loop variable.  Exhausting
the range with no break yields `exhausted` (the `else` clause). -/
def loopTurns (env : Env) : Nat → Nat → LoopSt → LoopRes
  | 0, _, st => .exhausted st
  | remaining + 1, turn, st =>
    match turnStep env turn st with
    | .done msg st1 => .completed msg st1
    | .raised e st1 => .raised e st1
    | .next st1 => loopTurns env remaining (turn + 1) st1

/-- The loop state at entry of the turn loop: the initial message built from
the goal and the first screenshot, no history, one capture performed. -/
def initialLoopSt (goal img : String) : LoopSt :=
  { contents := buildInitialMessage goal img,
    history := [],
    ctrs := { nCap := 1 },
    trace := [.captureScreen 0] }

/-- The prefix `Agent terminated due to error: ` of the `except` handler's
final message. -/
def errFinalMsg (e : String) : String :=
  "Agent terminated due to error: " ++ e

/-- The `try`/`except` body of `ComputerUseAgent.run` (everything before
`finally`), returning `(final_response, termination_reason, action_history,
page_is_set, counters, trace)`.  Exceptions raised anywhere in the body are
caught by the `except Exception` handler, which produces the
`Agent terminated due to error: ...` message and reason `ERROR`; so this
function is total.  `page_is_set` records whether `browser.start()`
succeeded in creating the page (the condition `self.browser.page` tested by
the `finally` block).  The initial navigation is `goto(initial_url)` when a
(truthy) URL was supplied and `search()` otherwise; either way it is one
`page.goto` call, modelled by `env.navOk`. -/
def runBody (env : Env) (goal : String) (initialUrl : Option String) (maxTurns : Nat) :
    String × String × List HEntry × Bool × Ctrs × List Ev :=
  match env.startOk with
  | .error e => (errFinalMsg e, "ERROR", [], false, {}, [])
  | .ok _ =>
    match (if (initialUrl.getD "") ≠ "" then env.navOk else env.navOk : Except String Unit) with
    | .error e => (errFinalMsg e, "ERROR", [], true, {}, [])
    | .ok _ =>
      match env.capture 0 with
      | .error e => (errFinalMsg e, "ERROR", [], true, { nCap := 1 }, [.captureScreen 0])
      | .ok img =>
        match loopTurns env maxTurns 0 (initialLoopSt goal img) with
        | .completed msg st => (msg, "COMPLETED", st.history, true, st.ctrs, st.trace)
        | .exhausted st =>
          ("Goal not completed within the maximum turn limit.", "MAX_TURNS_EXCEEDED",
           st.history, true, st.ctrs, st.trace)
        | .raised e st => (errFinalMsg e, "ERROR", st.history, true, st.ctrs, st.trace)

/-- The structured record returned by `run`. -/
structure RunResult where
  final_message : String
  action_history : List HEntry
  termination_reason : String
  final_screenshot_bytes : String
  deriving DecidableEq, Repr

/-- `ComputerUseAgent.run`: the `try/except` body followed by the `finally`
block.  In `finally`, when the page was created the final screenshot is
captured — an exception there propagates out of `run` — and then
`browser.close()` runs, whose re-raised exception also propagates.  The
outcome is `(result-or-escaped-exception, final counters, trace)`. -/
def runAgent (env : Env) (goal : String) (initialUrl : Option String) (maxTurns : Nat) :
    Except String RunResult × Ctrs × List Ev :=
  match runBody env goal initialUrl maxTurns with
  | (msg, reason, history, pageSet, c, tr) =>
    if pageSet then
      match env.capture c.nCap with
      | .error e =>
        (.error e, { c with nCap := c.nCap + 1 }, tr ++ [.captureScreen c.nCap])
      | .ok shot =>
        let c2 := { c with nCap := c.nCap + 1 }
        let tr2 := tr ++ [.captureScreen c.nCap]
        match env.closeOk with
        | .error e => (.error e, c2, tr2)
        | .ok _ => (.ok ⟨msg, history, reason, shot⟩, c2, tr2)
    else
      match env.closeOk with
      | .error e => (.error e, c, tr)
      | .ok _ => (.ok ⟨msg, history, reason, ""⟩, c, tr)

/-- The number of model calls in a trace. -/
def countModelCalls (tr : List Ev) : Nat :=
  tr.countP (fun ev => match ev with | .modelCall _ => true | _ => false)

/-- `AsyncBrowserManager._wait_after_action` (awaited variant; the
suspension points are transparent in this embedding). -/
def waitAfterActionA (env : Env) (c : Ctrs) : Ctrs × List Ev :=
  match env.waitLoad c.nWait with
  | .ok _ => ({ c with nWait := c.nWait + 1 }, [.settleWait])
  | .error _ => ({ c with nWait := c.nWait + 1 }, [.settleWait])

/-- `AsyncBrowserManager.execute_action`. -/
def executeActionA (env : Env) (c : Ctrs) (action_name : String) (action_args : Dict) :
    Dict × Ctrs × List Ev :=
  if registeredActions.contains action_name then
    match env.invoke c.nInv action_name action_args with
    | .error e => ([("error", e)], { c with nInv := c.nInv + 1 }, [.invokeAction action_name])
    | .ok _ =>
      let (c2, tr) := waitAfterActionA env { c with nInv := c.nInv + 1 }
      ([], c2, [.invokeAction action_name] ++ tr)
  else
    ([("warning", "Action `" ++ action_name ++ "` was not implemented")], c, [])

/-- `AsyncComputerUseAgent._execute_function_calls`. -/
def execFunctionCallsA (env : Env) (c : Ctrs) :
    List FunctionCall → Except String (List (String × Dict)) × Ctrs × List Ev
  | [] => (.ok [], c, [])
  | fc :: rest =>
    let fc_args := fc.args.getD []
    if dictContains fc_args "safety_decision" then
      match env.safety c.nSafety with
      | .error e => (.error e, { c with nSafety := c.nSafety + 1 }, [])
      | .ok decision =>
        let c1 := { c with nSafety := c.nSafety + 1 }
        if decision = "TERMINATE" then
          (.ok [], c1, [])
        else
          let (result, c2, tr) := executeActionA env c1 fc.name fc_args
          let entry := (fc.name, dictUpdate [("safety_acknowledgement", "true")] result)
          match execFunctionCallsA env c2 rest with
          | (.ok results, c3, tr2) => (.ok (entry :: results), c3, tr ++ tr2)
          | (.error e, c3, tr2) => (.error e, c3, tr ++ tr2)
    else
      let (result, c2, tr) := executeActionA env c fc.name fc_args
      let entry := (fc.name, dictUpdate [] result)
      match execFunctionCallsA env c2 rest with
      | (.ok results, c3, tr2) => (.ok (entry :: results), c3, tr ++ tr2)
      | (.error e, c3, tr2) => (.error e, c3, tr ++ tr2)

/-- One iteration of the turn loop of `AsyncComputerUseAgent.run` (the
message builders are the same `GeminiComputerUseClient` methods as in the
sync variant; `generate_content_async` is the same `env.model` oracle). -/
def turnStepA (env : Env) (turn : Nat) (st : LoopSt) : StepRes :=
  match env.model st.ctrs.nModel with
  | .error e =>
    .raised e { st with ctrs := { st.ctrs with nModel := st.ctrs.nModel + 1 },
                        trace := st.trace ++ [.modelCall st.ctrs.nModel] }
  | .ok response =>
    let st1 : LoopSt :=
      { st with ctrs := { st.ctrs with nModel := st.ctrs.nModel + 1 },
                trace := st.trace ++ [.modelCall st.ctrs.nModel] }
    match response.candidates with
    | [] => .raised "list index out of range" st1
    | candidate :: _ =>
      let st2 := { st1 with contents := st1.contents ++ [candidate.content] }
      let function_calls := candidate.content.parts.filterMap (fun p => p.function_call)
      if function_calls.isEmpty then
        .done (joinFinalText candidate.content.parts) st2
      else
        match execFunctionCallsA env st2.ctrs function_calls with
        | (.error e, c3, tr) =>
          .raised e { st2 with ctrs := c3, trace := st2.trace ++ tr }
        | (.ok action_results, c3, tr) =>
          let st3 := { st2 with ctrs := c3, trace := st2.trace ++ tr }
          let (entries, err) := recordHistory (turn + 1) function_calls action_results
          let st4 := { st3 with history := st3.history ++ entries }
          match err with
          | some e => .raised e st4
          | none =>
            match env.capture st4.ctrs.nCap with
            | .error e =>
              .raised e { st4 with ctrs := { st4.ctrs with nCap := st4.ctrs.nCap + 1 },
                                   trace := st4.trace ++ [.captureScreen st4.ctrs.nCap] }
            | .ok screenshot =>
              let st5 : LoopSt :=
                { st4 with ctrs := { st4.ctrs with nCap := st4.ctrs.nCap + 1 },
                           trace := st4.trace ++ [.captureScreen st4.ctrs.nCap] }
              match env.currentUrl st5.ctrs.nUrl with
              | .error e =>
                .raised e { st5 with ctrs := { st5.ctrs with nUrl := st5.ctrs.nUrl + 1 } }
              | .ok current_url =>
                let st6 : LoopSt :=
                  { st5 with ctrs := { st5.ctrs with nUrl := st5.ctrs.nUrl + 1 } }
                .next { st6 with contents := st6.contents ++
                          [buildFunctionResponsesMessage screenshot current_url action_results] }

/-- The turn loop of `AsyncComputerUseAgent.run`. -/
def loopTurnsA (env : Env) : Nat → Nat → LoopSt → LoopRes
  | 0, _, st => .exhausted st
  | remaining + 1, turn, st =>
    match turnStepA env turn st with
    | .done msg st1 => .completed msg st1
    | .raised e st1 => .raised e st1
    | .next st1 => loopTurnsA env remaining (turn + 1) st1

/-- The `try`/`except` body of `AsyncComputerUseAgent.run`. -/
def runBodyA (env : Env) (goal : String) (initialUrl : Option String) (maxTurns : Nat) :
    String × String × List HEntry × Bool × Ctrs × List Ev :=
  match env.startOk with
  | .error e => (errFinalMsg e, "ERROR", [], false, {}, [])
  | .ok _ =>
    match (if (initialUrl.getD "") ≠ "" then env.navOk else env.navOk : Except String Unit) with
    | .error e => (errFinalMsg e, "ERROR", [], true, {}, [])
    | .ok _ =>
      match env.capture 0 with
      | .error e => (errFinalMsg e, "ERROR", [], true, { nCap := 1 }, [.captureScreen 0])
      | .ok img =>
        match loopTurnsA env maxTurns 0 (initialLoopSt goal img) with
        | .completed msg st => (msg, "COMPLETED", st.history, true, st.ctrs, st.trace)
        | .exhausted st =>
          ("Goal not completed within the maximum turn limit.", "MAX_TURNS_EXCEEDED",
           st.history, true, st.ctrs, st.trace)
        | .raised e st => (errFinalMsg e, "ERROR", st.history, true, st.ctrs, st.trace)

/-- The loop state carried by a `StepRes`. -/
def StepRes.state : StepRes → LoopSt
  | .done _ st => st
  | .next st => st
  | .raised _ st => st

/-- The loop state carried by a `LoopRes`. -/
def LoopRes.state : LoopRes → LoopSt
  | .completed _ st => st
  | .exhausted st => st
  | .raised _ st => st

/-- A benign environment: every browser and model operation succeeds, and
the model's first response is a plain text answer (no function calls). -/
def envOk : Env :=
  { startOk := .ok ()
    navOk := .ok ()
    capture := fun _ => .ok "shot"
    currentUrl := fun _ => .ok "https://www.google.com/"
    model := fun _ => .ok ⟨[⟨{ role := "model", parts := [{ text := some "All done." }] }⟩]⟩
    invoke := fun _ _ _ => .ok ()
    waitLoad := fun _ => .ok ()
    safety := fun _ => .ok "CONTINUE"
    closeOk := .ok () }

/-- `envOk` except that `browser.close()` raises. -/
def envCloseFail : Env :=
  { envOk with closeOk := .error "close failed" }

/-- A model response whose single candidate requests a two-action batch:
a `click_at` carrying a `safety_decision`, then a queued `navigate`. -/
def respSafetyBatch : ModelResponse :=
  ⟨[⟨{ role := "model",
       parts := [
         { function_call := some ⟨"click_at",
             some [("safety_decision", "confirmation required"), ("x", "500"), ("y", "500")]⟩ },
         { function_call := some ⟨"navigate", some [("url", "https://example.com")]⟩ }] }⟩]⟩

/-- An environment whose model response is `respSafetyBatch` and whose
safety gate answers `TERMINATE`. -/
def envSafetyTerm : Env :=
  { envOk with
    model := fun _ => .ok respSafetyBatch
    safety := fun _ => .ok "TERMINATE" }

/-- A `click_at` function call with plain coordinates. -/
def fcClickAt : FunctionCall :=
  ⟨"click_at", some [("x", "500"), ("y", "500")]⟩

/-- A model response consisting of the single `click_at` call. -/
def respClickAt : ModelResponse :=
  ⟨[⟨{ role := "model", parts := [{ function_call := some fcClickAt }] }⟩]⟩

/-- An environment where the model requests `click_at` and the underlying
Playwright invocation raises. -/
def envInvokeFail : Env :=
  { envOk with
    model := fun _ => .ok respClickAt
    invoke := fun _ _ _ => .error "Timeout 30000ms exceeded" }

/-- `AsyncComputerUseAgent.run`: body plus `finally` block, as in the sync
variant (`AsyncBrowserManager.close` likewise re-raises). -/
def runAgentAsync (env : Env) (goal : String) (initialUrl : Option String) (maxTurns : Nat) :
    Except String RunResult × Ctrs × List Ev :=
  match runBodyA env goal initialUrl maxTurns with
  | (msg, reason, history, pageSet, c, tr) =>
    if pageSet then
      match env.capture c.nCap with
      | .error e =>
        (.error e, { c with nCap := c.nCap + 1 }, tr ++ [.captureScreen c.nCap])
      | .ok shot =>
        let c2 := { c with nCap := c.nCap + 1 }
        let tr2 := tr ++ [.captureScreen c.nCap]
        match env.closeOk with
        | .error e => (.error e, c2, tr2)
        | .ok _ => (.ok ⟨msg, history, reason, shot⟩, c2, tr2)
    else
      match env.closeOk with
      | .error e => (.error e, c, tr)
      | .ok _ => (.ok ⟨msg, history, reason, ""⟩, c, tr)

end CUA


namespace AutoTool

theorem createSchemaFromType_default (t : PyType) :
    (createSchemaFromType t).default = .vNone := by
  induction t using createSchemaFromType.induct <;>
    simp [createSchemaFromType, schemaDefault, *]

theorem oasFormat_no_default_key (s : SchemaL) (h : s.default = .vNone) :
    "default" ∉ s.oasFormat.keys := by
  obtain ⟨ty, props, req, desc, items, en, dflt⟩ := s
  have h' : dflt = PyValue.vNone := h
  subst h'
  rcases items with _ | it <;>
    by_cases h1 : desc = "" <;>
    by_cases h2 : props.isEmpty <;>
    by_cases h3 : req.isEmpty <;>
    by_cases h4 : en.isEmpty <;>
    simp [SchemaL.oasFormat, JVal.keys, h1, h2, h3, h4]

theorem processParamsAux_required (hints : List (String × PyHint)) (ps : List PyParam) :
    (processParamsAux hints ps).2
      = (ps.filter (fun p => isProcessed p && p.default.isNone)).map PyParam.name := by
  induction ps with
  | nil => rfl
  | cons p rest ih =>
    by_cases h1 : p.name = "self"
    · simp [processParamsAux, h1, isProcessed, ih]
    · by_cases h2 : p.kind = .varPos ∨ p.kind = .varKw
      · have : isProcessed p = false := by
          rcases h2 with h2 | h2 <;> simp [isProcessed, h2]
        simp [processParamsAux, h1, h2, this, ih]
      · have hproc : isProcessed p = true := by
          push_neg at h2
          simp [isProcessed, h1, h2.1, h2.2]
        cases hd : p.default with
        | some v => simp [processParamsAux, h1, h2, hd, hproc, ih]
        | none => simp [processParamsAux, h1, h2, hd, hproc, ih]

/-- C3: for a native callable, a (processed) parameter's name is in the
generated required set iff the parameter has no declared default, and the
required set lists exactly the default-less processed parameters' names in
declaration order.  (Parameters named `self` and `*args`/`**kwargs` are
skipped by the builder and produce no schema entry; Python signatures have
unique parameter names, giving the `Nodup` hypothesis.) -/
theorem C3_required_iff_no_default (f : PyFunc)
    (hnd : (f.params.map PyParam.name).Nodup) :
    (processParameters f).2
      = (f.params.filter (fun p => isProcessed p && p.default.isNone)).map PyParam.name
    ∧ ∀ p ∈ f.params, isProcessed p = true →
        (p.name ∈ (processParameters f).2 ↔ p.default = none) := by
  have hreq := processParamsAux_required f.hints f.params
  refine ⟨hreq, fun p hp hproc => ?_⟩
  rw [processParameters, hreq]
  constructor
  · intro hmem
    simp only [List.mem_map, List.mem_filter] at hmem
    obtain ⟨q, ⟨hq, hqf⟩, hqname⟩ := hmem
    have hqp : q = p := List.inj_on_of_nodup_map hnd hq hp hqname
    subst hqp
    simp only [Bool.and_eq_true, Option.isNone_iff_eq_none] at hqf
    exact hqf.2
  · intro hnone
    simp only [List.mem_map, List.mem_filter]
    exact ⟨p, ⟨hp, by simp [hproc, hnone]⟩, rfl⟩

theorem C3_witness :
    (navigateFunc.params.map PyParam.name).Nodup
    ∧ ((processParameters navigateFunc).2
        = (navigateFunc.params.filter
            (fun p => isProcessed p && p.default.isNone)).map PyParam.name
      ∧ ∀ p ∈ navigateFunc.params, isProcessed p = true →
          (p.name ∈ (processParameters navigateFunc).2 ↔ p.default = none)) :=
  ⟨by decide, C3_required_iff_no_default navigateFunc (by decide)⟩

end AutoTool

namespace AutoTool

/-- C8 (code bug): a parameter annotated with the bare builtin `list` has
`get_origin(list) = None` in Python, so it bypasses the sequence branch of
`_create_schema_from_type` (whose comment says "default to 'str' if not
specified (like just 'list')") and falls through to the type map, producing
an `array` schema with NO `items` entry at all.  Only the unparameterized
`typing.List` (origin `list`, empty args) takes the branch and gets
string-typed items. -/
theorem C8_bare_builtin_list_no_items :
    (processParameters bareListFunc).1
      = [("x", { schemaDefault .array with description := "Parameter \x27x\x27." })]
    ∧ (createSchemaFromType .builtinList).items = none
    ∧ (createSchemaFromType .builtinList).oasFormat = .jObj [("type", .jStr "array")]
    ∧ "items" ∉ (createSchemaFromType .builtinList).oasFormat.keys
    ∧ (createSchemaFromType (.typingList [])).items = some (schemaDefault .string) := by
  refine ⟨?_, ?_, ?_, ?_, ?_⟩ <;>
    simp [processParameters, processParamsAux, bareListFunc, createSchemaFromType,
          schemaDefault, SchemaL.oasFormat, JVal.keys, List.lookup, OpenAPIType.val]

/-- C10: a parameter whose declared default is `None` is excluded from the
required set (it counts as having a default), but `oas_format`'s
`is not None` guard drops the `None` default from the serialized schema, so
the emitted parameter schema is identical to that of the same parameter
declared with no default at all; only required-set membership differs. -/
theorem C10_none_default_indistinguishable (pname : String) (ty : PyType)
    (h : pname ≠ "self") :
    (processParameters ⟨[⟨pname, .posOrKw, some .vNone⟩], [(pname, ⟨ty, none⟩)]⟩).1
      = (processParameters ⟨[⟨pname, .posOrKw, none⟩], [(pname, ⟨ty, none⟩)]⟩).1
    ∧ (processParameters ⟨[⟨pname, .posOrKw, some .vNone⟩], [(pname, ⟨ty, none⟩)]⟩).2 = []
    ∧ (processParameters ⟨[⟨pname, .posOrKw, none⟩], [(pname, ⟨ty, none⟩)]⟩).2 = [pname]
    ∧ ∀ kv ∈ (processParameters ⟨[⟨pname, .posOrKw, some .vNone⟩], [(pname, ⟨ty, none⟩)]⟩).1,
        "default" ∉ kv.2.oasFormat.keys := by
  rcases hcs : createSchemaFromType ty with ⟨aty, props, req, desc0, items0, en0, dflt0⟩
  have hg : dflt0 = .vNone := by
    have hd := createSchemaFromType_default ty
    rw [hcs] at hd
    exact hd
  subst hg
  refine ⟨?_, ?_, ?_, ?_⟩
  · simp [processParameters, processParamsAux, h, hcs, List.lookup]
  · simp [processParameters, processParamsAux, h, hcs, List.lookup]
  · simp [processParameters, processParamsAux, h, hcs, List.lookup]
  · have hlist : (processParameters
        ⟨[⟨pname, .posOrKw, some .vNone⟩], [(pname, ⟨ty, none⟩)]⟩).1
        = [(pname, ⟨aty, props, req, "Parameter \x27" ++ pname ++ "\x27.",
             items0, en0, .vNone⟩)] := by
      simp [processParameters, processParamsAux, h, hcs, List.lookup]
    intro kv hkv
    rw [hlist] at hkv
    simp only [List.mem_singleton] at hkv
    subst hkv
    exact oasFormat_no_default_key _ rfl

theorem C10_witness :
    ((processParameters ⟨[⟨"press_enter", .posOrKw, some .vNone⟩],
        [("press_enter", ⟨.pyBool, none⟩)]⟩).1
      = (processParameters ⟨[⟨"press_enter", .posOrKw, none⟩],
          [("press_enter", ⟨.pyBool, none⟩)]⟩).1
    ∧ (processParameters ⟨[⟨"press_enter", .posOrKw, some .vNone⟩],
        [("press_enter", ⟨.pyBool, none⟩)]⟩).2 = []
    ∧ (processParameters ⟨[⟨"press_enter", .posOrKw, none⟩],
        [("press_enter", ⟨.pyBool, none⟩)]⟩).2 = ["press_enter"]
    ∧ ∀ kv ∈ (processParameters ⟨[⟨"press_enter", .posOrKw, some .vNone⟩],
        [("press_enter", ⟨.pyBool, none⟩)]⟩).1,
        "default" ∉ kv.2.oasFormat.keys) :=
  C10_none_default_indistinguishable "press_enter" .pyBool (by decide)

end AutoTool

namespace CUA

/-- C1 (code bug): when the safety gate answers `TERMINATE` for a flagged
action, `_execute_function_calls` breaks out of the batch, so dispatch of
the flagged action and of the queued `navigate` stops (no `invokeAction`
event in the trace) and no further model calls happen (exactly one
`modelCall` event) — but the results list is now shorter than the batch, so
the history-recording loop in `run` raises `IndexError`, caught by the
`except` handler: the run ends with termination reason `ERROR` and an error
final message, not as a graceful termination. -/
theorem C1_safety_terminate_ends_as_error :
    runAgent envSafetyTerm "fill the form" none 5
      = (.ok ⟨errFinalMsg "list index out of range", [], "ERROR", "shot"⟩,
         { nModel := 1, nCap := 2, nUrl := 0, nInv := 0, nWait := 0, nSafety := 1 },
         [.captureScreen 0, .modelCall 0, .captureScreen 1]) := rfl

/-- C2 counterexample: resource acquisition (`start`) succeeds in
`envCloseFail`, yet the run raises past `run`'s boundary, because
`browser.close()` in the `finally` block re-raises — so the claim's
"never raises except during resource acquisition failure" is false. -/
theorem C2_counterexample :
    (runAgent envCloseFail "g" none 5).1 = .error "close failed"
    ∧ envCloseFail.startOk = .ok () :=
  ⟨rfl, rfl⟩

/-- C4 counterexample: `click_at` is dispatched and its failure is caught
and converted to an `error` result, yet no settle wait happens (the trace
is just the invocation, with no `settleWait` event): `execute_action` only
reaches `_wait_after_action` on the success path. -/
theorem C4_counterexample :
    (executeAction envInvokeFail {} "click_at" [("x", "500")]).2.2
        = [.invokeAction "click_at"]
    ∧ Ev.settleWait ∉ (executeAction envInvokeFail {} "click_at" [("x", "500")]).2.2
    ∧ (executeAction envInvokeFail {} "click_at" [("x", "500")]).1
        = [("error", "Timeout 30000ms exceeded")] :=
  ⟨rfl, by decide, rfl⟩

/-- C4 as amended: after every successfully invoked registered action the
dispatcher performs the settle wait before returning control, whatever
`wait_for_load_state` does (its timeout is swallowed — the conclusion does
not depend on `env.waitLoad`); when the invocation raises, the caught
failure is returned as an `error` result immediately, with no settle
wait. -/
theorem C4_settle_only_after_success (env : Env) (c : Ctrs) (name : String) (args : Dict)
    (hreg : registeredActions.contains name = true) :
    (∀ u, env.invoke c.nInv name args = .ok u →
        executeAction env c name args
          = ([], { c with nInv := c.nInv + 1, nWait := c.nWait + 1 },
             [.invokeAction name, .settleWait]))
    ∧ ∀ e, env.invoke c.nInv name args = .error e →
        executeAction env c name args
          = ([("error", e)], { c with nInv := c.nInv + 1 }, [.invokeAction name]) := by
  constructor
  · intro u hinv
    cases u
    simp only [executeAction, hreg, if_true, hinv, waitAfterAction]
    cases hw : env.waitLoad ({ c with nInv := c.nInv + 1 }).nWait <;> simp [hw]
  · intro e hinv
    simp only [executeAction, hreg, if_true, hinv]

theorem C4_witness :
    executeAction envOk {} "navigate" [("url", "https://example.com")]
      = ([], { nInv := 1, nWait := 1 }, [.invokeAction "navigate", .settleWait]) :=
  (C4_settle_only_after_success envOk {} "navigate" [("url", "https://example.com")] rfl).1
    () rfl

/-- C5 counterexample: for the unregistered name `foo_action` the returned
warning message quotes the name in backticks, not in single quotes as the
claim states. -/
theorem C5_counterexample :
    (executeAction envOk {} "foo_action" []).1
        ≠ [("warning", "Action \x27foo_action\x27 was not implemented")]
    ∧ (executeAction envOk {} "foo_action" []).1
        = [("warning", "Action `foo_action` was not implemented")] :=
  ⟨by decide, rfl⟩

/-- C5 as amended: dispatching any unregistered action name never raises
(`executeAction` is total by construction, mirroring the source's
`try/except`) and returns exactly the soft-warning result
`{warning: "Action `<name>` was not implemented"}` — with backticks around
the name — leaving the counters untouched and performing no action
invocation, no settle wait, and no other side effect (empty event trace),
so the run continues. -/
theorem C5_unknown_action_warning (env : Env) (c : Ctrs) (name : String) (args : Dict)
    (h : registeredActions.contains name = false) :
    executeAction env c name args
      = ([("warning", "Action `" ++ name ++ "` was not implemented")], c, []) := by
  unfold executeAction
  rw [h]
  simp

theorem C5_witness :
    executeAction envOk {} "drag_me" []
      = ([("warning", "Action `drag_me` was not implemented")], {}, []) :=
  C5_unknown_action_warning envOk {} "drag_me" [] rfl

end CUA

namespace CUA

/-- C2 as amended: `run` always returns the structured result record (final
message, ordered action history, explicit termination reason, final
screenshot) — every exception raised by the body, including model-call and
in-loop observation failures and resource *acquisition* failures, is caught
and reported as an `ERROR` result — except that an exception escaping the
`finally` cleanup (the final `capture_screen`, or `close` which re-raises)
propagates past `run`'s boundary: any escaped exception originates there. -/
theorem C2_raises_only_from_cleanup (env : Env) (goal : String) (url : Option String)
    (mt : Nat) (e : String)
    (h : (runAgent env goal url mt).1 = .error e) :
    (∃ n, env.capture n = .error e) ∨ env.closeOk = .error e := by
  unfold runAgent at h
  rcases hrb : runBody env goal url mt with ⟨msg, reason, history, pageSet, c, tr⟩
  rw [hrb] at h
  dsimp only at h
  cases pageSet with
  | false =>
    simp only [Bool.false_eq_true, if_false] at h
    cases hco : env.closeOk with
    | error e2 =>
      rw [hco] at h
      simp only [Except.error.injEq] at h
      subst h
      exact .inr rfl
    | ok u => rw [hco] at h; simp at h
  | true =>
    simp only [if_true] at h
    cases hcap : env.capture c.nCap with
    | error e2 =>
      rw [hcap] at h
      simp only [Except.error.injEq] at h
      subst h
      exact .inl ⟨c.nCap, hcap⟩
    | ok shot =>
      rw [hcap] at h
      dsimp only at h
      cases hco : env.closeOk with
      | error e2 =>
        rw [hco] at h
        simp only [Except.error.injEq] at h
        subst h
        exact .inr rfl
      | ok u => rw [hco] at h; simp at h

theorem C2_witness :
    (∃ n, envCloseFail.capture n = .error "close failed")
    ∨ envCloseFail.closeOk = .error "close failed" :=
  C2_raises_only_from_cleanup envCloseFail "g" none 5 "close failed" rfl

end CUA

namespace CUA

theorem executeAction_err (env : Env) (c : Ctrs) (name : String) (args : Dict) (e : String)
    (hreg : registeredActions.contains name = true)
    (hinv : env.invoke c.nInv name args = .error e) :
    executeAction env c name args
      = ([("error", e)], { c with nInv := c.nInv + 1 }, [.invokeAction name]) := by
  simp only [executeAction, hreg, if_true, hinv]

theorem execFunctionCalls_single_err (env : Env) (c : Ctrs) (fcName : String)
    (args : Dict) (e : String)
    (hsd : dictContains args "safety_decision" = false)
    (hreg : registeredActions.contains fcName = true)
    (hinv : env.invoke c.nInv fcName args = .error e) :
    execFunctionCalls env c [⟨fcName, some args⟩]
      = (.ok [(fcName, [("error", e)])], { c with nInv := c.nInv + 1 },
         [.invokeAction fcName]) := by
  simp only [execFunctionCalls, Option.getD_some]
  rw [hsd]
  simp only [Bool.false_eq_true, if_false]
  rw [executeAction_err env c fcName args e hreg hinv]
  simp [execFunctionCalls, dictUpdate, dictSet]


/-- C6: when a registered action's underlying implementation raises during
invocation, `execute_action` converts the fault into an `error` result
rather than propagating it; the agent loop records that result in the
corresponding action-history entry and the iteration completes normally —
the loop equation shows the run proceeding into the next iteration (whose
first step is the next model call) instead of aborting. -/
theorem C6_action_error_recorded
    (env : Env) (fuel turn : Nat) (st : LoopSt) (fcName : String) (args : Dict) (e : String)
    (resp : ModelResponse) (cand : Candidate) (cs : List Candidate) (shot curl : String)
    (hm : env.model st.ctrs.nModel = .ok resp)
    (hc : resp.candidates = cand :: cs)
    (hfc : cand.content.parts.filterMap (fun p => p.function_call) = [⟨fcName, some args⟩])
    (hsd : dictContains args "safety_decision" = false)
    (hreg : registeredActions.contains fcName = true)
    (hinv : env.invoke st.ctrs.nInv fcName args = .error e)
    (hcap : env.capture st.ctrs.nCap = .ok shot)
    (hurl : env.currentUrl st.ctrs.nUrl = .ok curl) :
    ∃ st1, loopTurns env (fuel + 1) turn st = loopTurns env fuel (turn + 1) st1
      ∧ st1.history = st.history ++ [⟨turn + 1, fcName, args, [("error", e)]⟩]
      ∧ st1.ctrs.nModel = st.ctrs.nModel + 1 := by
  have hexec := execFunctionCalls_single_err env
    { st.ctrs with nModel := st.ctrs.nModel + 1 } fcName args e hsd hreg hinv
  refine ⟨⟨st.contents ++ [cand.content]
              ++ [buildFunctionResponsesMessage shot curl [(fcName, [("error", e)])]],
            st.history ++ [⟨turn + 1, fcName, args, [("error", e)]⟩],
            ⟨st.ctrs.nModel + 1, st.ctrs.nCap + 1, st.ctrs.nUrl + 1,
             st.ctrs.nInv + 1, st.ctrs.nWait, st.ctrs.nSafety⟩,
            st.trace ++ [.modelCall st.ctrs.nModel] ++ [.invokeAction fcName]
              ++ [.captureScreen st.ctrs.nCap]⟩, ?_, by simp, by simp⟩
  conv_lhs => rw [loopTurns]
  simp only [turnStep, hm, hc, hfc, hexec, hcap, hurl, recordHistory,
             List.isEmpty_cons, Bool.false_eq_true, if_false, Option.getD_some,
             List.append_nil]


theorem C6_witness :
    ∃ st1, loopTurns envInvokeFail 1 0 (initialLoopSt "g" "shot")
        = loopTurns envInvokeFail 0 1 st1
      ∧ st1.history = (initialLoopSt "g" "shot").history
          ++ [⟨0 + 1, "click_at", [("x", "500"), ("y", "500")],
               [("error", "Timeout 30000ms exceeded")]⟩]
      ∧ st1.ctrs.nModel = (initialLoopSt "g" "shot").ctrs.nModel + 1 :=
  C6_action_error_recorded envInvokeFail 0 0 (initialLoopSt "g" "shot") "click_at"
    [("x", "500"), ("y", "500")] "Timeout 30000ms exceeded" respClickAt
    ⟨{ role := "model", parts := [{ function_call := some fcClickAt }] }⟩ []
    "shot" "https://www.google.com/" rfl rfl rfl rfl rfl rfl rfl rfl

theorem countModelCalls_nil : countModelCalls [] = 0 := rfl

theorem countModelCalls_append (a b : List Ev) :
    countModelCalls (a ++ b) = countModelCalls a + countModelCalls b :=
  List.countP_append _ _ _

theorem countModelCalls_executeAction (env : Env) (c : Ctrs) (name : String) (args : Dict) :
    countModelCalls (executeAction env c name args).2.2 = 0 := by
  unfold executeAction
  split
  · cases env.invoke c.nInv name args with
    | error e => simp [countModelCalls]
    | ok u =>
      unfold waitAfterAction
      cases env.waitLoad ({ c with nInv := c.nInv + 1 }).nWait <;> simp [countModelCalls]
  · simp [countModelCalls]

theorem countModelCalls_execFunctionCalls (env : Env) :
    ∀ (fcs : List FunctionCall) (c : Ctrs),
      countModelCalls (execFunctionCalls env c fcs).2.2 = 0 := by
  intro fcs
  induction fcs with
  | nil => intro c; simp [execFunctionCalls, countModelCalls]
  | cons fc rest ih =>
    intro c
    unfold execFunctionCalls
    dsimp only
    split
    · cases hs : env.safety c.nSafety with
      | error e => simp [countModelCalls]
      | ok d =>
        dsimp only
        split
        · simp [countModelCalls]
        · rcases hE : executeAction env { c with nSafety := c.nSafety + 1 } fc.name
            (fc.args.getD []) with ⟨result, c2, tr⟩
          have htr : countModelCalls tr = 0 := by
            have h0 := countModelCalls_executeAction env
              { c with nSafety := c.nSafety + 1 } fc.name (fc.args.getD [])
            rw [hE] at h0
            exact h0
          rcases hR : execFunctionCalls env c2 rest with ⟨res3, c3, tr2⟩
          have htr2 : countModelCalls tr2 = 0 := by
            have h1 := ih c2
            rw [hR] at h1
            exact h1
          cases res3 <;> simp [countModelCalls_append, htr, htr2]
    · rcases hE : executeAction env c fc.name (fc.args.getD []) with ⟨result, c2, tr⟩
      have htr : countModelCalls tr = 0 := by
        have h0 := countModelCalls_executeAction env c fc.name (fc.args.getD [])
        rw [hE] at h0
        exact h0
      rcases hR : execFunctionCalls env c2 rest with ⟨res3, c3, tr2⟩
      have htr2 : countModelCalls tr2 = 0 := by
        have h1 := ih c2
        rw [hR] at h1
        exact h1
      cases res3 <;> simp [countModelCalls_append, htr, htr2]

theorem countModelCalls_cons_model (i : Nat) (l : List Ev) :
    countModelCalls (Ev.modelCall i :: l) = countModelCalls l + 1 := by
  simp [countModelCalls, List.countP_cons]

theorem countModelCalls_capture_nil (i : Nat) :
    countModelCalls [Ev.captureScreen i] = 0 := rfl

theorem countModelCalls_turnStep (env : Env) (turn : Nat) (st : LoopSt) :
    countModelCalls (turnStep env turn st).state.trace ≤ countModelCalls st.trace + 1 := by
  unfold turnStep
  split
  · simp [StepRes.state, countModelCalls_append, countModelCalls_cons_model,
          countModelCalls_nil]
  · rename_i resp heqm
    split
    · simp [StepRes.state, countModelCalls_append, countModelCalls_cons_model,
            countModelCalls_nil]
    · rename_i cand cs heqc
      dsimp only
      split
      · simp [StepRes.state, countModelCalls_append, countModelCalls_cons_model,
              countModelCalls_nil]
      · split
        · rename_i e c3 tr heqE
          have h0 := countModelCalls_execFunctionCalls env
            (cand.content.parts.filterMap (fun p => p.function_call))
            { st.ctrs with nModel := st.ctrs.nModel + 1 }
          rw [heqE] at h0
          simp [StepRes.state, countModelCalls_append, countModelCalls_cons_model, h0]
        · rename_i action_results c3 tr heqE
          have h0 := countModelCalls_execFunctionCalls env
            (cand.content.parts.filterMap (fun p => p.function_call))
            { st.ctrs with nModel := st.ctrs.nModel + 1 }
          rw [heqE] at h0
          split
          · simp [StepRes.state, countModelCalls_append, countModelCalls_cons_model, h0]
          · split
            · simp [StepRes.state, countModelCalls_append, countModelCalls_cons_model, h0,
                    countModelCalls_capture_nil]
            · split <;>
                simp [StepRes.state, countModelCalls_append, countModelCalls_cons_model, h0,
                      countModelCalls_capture_nil]

theorem countModelCalls_loopTurns (env : Env) :
    ∀ (n turn : Nat) (st : LoopSt),
      countModelCalls (loopTurns env n turn st).state.trace ≤ countModelCalls st.trace + n := by
  intro n
  induction n with
  | zero => intro t st; simp [loopTurns, LoopRes.state]
  | succ n ih =>
    intro t st
    unfold loopTurns
    cases hs : turnStep env t st with
    | done msg st1 =>
      have h1 := countModelCalls_turnStep env t st
      rw [hs] at h1
      simp only [StepRes.state] at h1
      simp only [LoopRes.state]
      omega
    | raised e st1 =>
      have h1 := countModelCalls_turnStep env t st
      rw [hs] at h1
      simp only [StepRes.state] at h1
      simp only [LoopRes.state]
      omega
    | next st1 =>
      have h1 := countModelCalls_turnStep env t st
      rw [hs] at h1
      simp only [StepRes.state] at h1
      have h2 := ih (t + 1) st1
      dsimp only
      omega

theorem countModelCalls_runBody (env : Env) (goal : String) (url : Option String) (mt : Nat) :
    countModelCalls (runBody env goal url mt).2.2.2.2.2 ≤ mt := by
  unfold runBody
  cases env.startOk with
  | error e => simp [countModelCalls]
  | ok u =>
    rw [ite_self]
    cases env.navOk with
    | error e => simp [countModelCalls]
    | ok v =>
      cases env.capture 0 with
      | error e => simp [countModelCalls]
      | ok img =>
        have h0 := countModelCalls_loopTurns env mt 0 (initialLoopSt goal img)
        cases hl : loopTurns env mt 0 (initialLoopSt goal img) with
        | completed msg st =>
          rw [hl] at h0
          simp only [LoopRes.state, initialLoopSt] at h0
          simp only [hl]
          simpa [countModelCalls] using h0
        | exhausted st =>
          rw [hl] at h0
          simp only [LoopRes.state, initialLoopSt] at h0
          simp only [hl]
          simpa [countModelCalls] using h0
        | raised e st =>
          rw [hl] at h0
          simp only [LoopRes.state, initialLoopSt] at h0
          simp only [hl]
          simpa [countModelCalls] using h0

theorem countModelCalls_runAgent (env : Env) (goal : String) (url : Option String) (mt : Nat) :
    countModelCalls (runAgent env goal url mt).2.2 ≤ mt := by
  have hb := countModelCalls_runBody env goal url mt
  unfold runAgent
  rcases hrb : runBody env goal url mt with ⟨msg, reason, history, pageSet, c, tr⟩
  rw [hrb] at hb
  dsimp only at hb ⊢
  cases pageSet with
  | false =>
    cases env.closeOk <;> simpa using hb
  | true =>
    simp only [if_true]
    cases env.capture c.nCap with
    | error e => simpa [countModelCalls_append, countModelCalls] using hb
    | ok shot =>
      cases env.closeOk <;> simpa [countModelCalls_append, countModelCalls] using hb

end CUA

namespace CUA


/-- C7: the model is called at most `max_turns` times in every run (the
event trace contains at most `max_turns` `modelCall` events, whatever the
environment does), and whenever the turn loop exhausts all its iterations
without a `COMPLETED` break (which with `max_turns = 0` happens vacuously),
the body reports reason `MAX_TURNS_EXCEEDED` with the non-empty synthesized
message, and any result record `run` returns carries that reason and
message. -/
theorem C7_turn_budget (env : Env) (goal : String) (url : Option String) (mt : Nat) :
    countModelCalls (runAgent env goal url mt).2.2 ≤ mt
    ∧ ∀ img st, env.startOk = .ok () → env.navOk = .ok () → env.capture 0 = .ok img →
        loopTurns env mt 0 (initialLoopSt goal img) = .exhausted st →
        (runBody env goal url mt).2.1 = "MAX_TURNS_EXCEEDED"
        ∧ (runBody env goal url mt).1 = "Goal not completed within the maximum turn limit."
        ∧ (runBody env goal url mt).1 ≠ ""
        ∧ ∀ res, (runAgent env goal url mt).1 = .ok res →
            res.termination_reason = "MAX_TURNS_EXCEEDED"
            ∧ res.final_message = "Goal not completed within the maximum turn limit." := by
  refine ⟨countModelCalls_runAgent env goal url mt, ?_⟩
  intro img st hstart hnav hcap hloop
  have hb : runBody env goal url mt
      = ("Goal not completed within the maximum turn limit.", "MAX_TURNS_EXCEEDED",
         st.history, true, st.ctrs, st.trace) := by
    unfold runBody
    rw [hstart]
    dsimp only
    rw [ite_self, hnav]
    dsimp only
    rw [hcap]
    dsimp only
    rw [hloop]
  refine ⟨by rw [hb], by rw [hb], by rw [hb]; simp, ?_⟩
  intro res hres
  unfold runAgent at hres
  rw [hb] at hres
  simp only [if_true] at hres
  cases hcap2 : env.capture st.ctrs.nCap with
  | error e => rw [hcap2] at hres; simp at hres
  | ok shot =>
    rw [hcap2] at hres
    dsimp only at hres
    cases hco : env.closeOk with
    | error e => rw [hco] at hres; simp at hres
    | ok u =>
      rw [hco] at hres
      simp only [Except.ok.injEq] at hres
      subst hres
      exact ⟨rfl, rfl⟩


theorem C7_witness :
    countModelCalls (runAgent envOk "g" none 0).2.2 ≤ 0
    ∧ ((runBody envOk "g" none 0).2.1 = "MAX_TURNS_EXCEEDED"
      ∧ (runBody envOk "g" none 0).1 = "Goal not completed within the maximum turn limit."
      ∧ (runBody envOk "g" none 0).1 ≠ ""
      ∧ ∀ res, (runAgent envOk "g" none 0).1 = .ok res →
          res.termination_reason = "MAX_TURNS_EXCEEDED"
          ∧ res.final_message = "Goal not completed within the maximum turn limit.") :=
  ⟨(C7_turn_budget envOk "g" none 0).1,
   (C7_turn_budget envOk "g" none 0).2 "shot" (initialLoopSt "g" "shot") rfl rfl rfl rfl⟩


theorem waitAfterActionA_eq (env : Env) (c : Ctrs) :
    waitAfterActionA env c = waitAfterAction env c := rfl

theorem executeActionA_eq (env : Env) (c : Ctrs) (name : String) (args : Dict) :
    executeActionA env c name args = executeAction env c name args := rfl

theorem execFunctionCallsA_eq (env : Env) : ∀ (fcs : List FunctionCall) (c : Ctrs),
    execFunctionCallsA env c fcs = execFunctionCalls env c fcs := by
  intro fcs
  induction fcs with
  | nil => intro c; rfl
  | cons fc rest ih =>
    intro c
    unfold execFunctionCallsA execFunctionCalls
    simp only [executeActionA_eq, ih]

theorem turnStepA_eq (env : Env) (turn : Nat) (st : LoopSt) :
    turnStepA env turn st = turnStep env turn st := by
  unfold turnStepA turnStep
  simp only [execFunctionCallsA_eq]

theorem loopTurnsA_eq (env : Env) : ∀ (n turn : Nat) (st : LoopSt),
    loopTurnsA env n turn st = loopTurns env n turn st := by
  intro n
  induction n with
  | zero => intro t st; rfl
  | succ n ih =>
    intro t st
    unfold loopTurnsA loopTurns
    simp only [turnStepA_eq, ih]

theorem runBodyA_eq (env : Env) (goal : String) (url : Option String) (mt : Nat) :
    runBodyA env goal url mt = runBody env goal url mt := by
  unfold runBodyA runBody
  simp only [loopTurnsA_eq]


/-- C9: the blocking (`ComputerUseAgent.run`) and suspending
(`AsyncComputerUseAgent.run`) variants are behaviorally equivalent: for the
same goal, initial URL, turn budget, and adapter behaviors they return the
same result record, the same final counters, and the same event trace. -/
theorem C9_sync_async_equivalent (env : Env) (goal : String) (url : Option String) (mt : Nat) :
    runAgentAsync env goal url mt = runAgent env goal url mt := by
  unfold runAgentAsync runAgent
  simp only [runBodyA_eq]


end CUA
